import Mathlib

/-!
Shallow embedding of the memory-chat bot (Express server + storage backends).

The server (`src/unnamed/part_000`, second file: `server.js`) keeps three
tables — `sessions`, `messages`, `long_term_memory` — through a storage layer
(`src/vector-storage.js` file-backed arrays, or the in-memory map of
`src/unnamed/part_001`).  We model the storage state as explicit lists and
the handlers as pure state-transformers.  External HTTP calls (the chat
completion and the summary completion) are modelled by their results, passed
in as `Option String` (`none` = network error / malformed response, i.e. the
JS promise rejecting).  Message embeddings are produced by a networked call
with a local fallback; chat-flow code never reads them, so the embedding
payload is a type parameter `E` (instantiated with `List ℝ` for the semantic
search development, `Unit` for concrete evaluations).

A JS string used as embedding input is modelled as its sequence of character
codes (`List ℕ`, the values `charCodeAt` yields).
-/

namespace Bot

/-- `config.js`: MAX_SHORT_TERM_ROUNDS. -/
def MAX_SHORT_TERM_ROUNDS : ℕ := 6

/-- `config.js`: SUMMARY_TRIGGER_ROUNDS. -/
def SUMMARY_TRIGGER_ROUNDS : ℕ := 10

/-- A row of the `sessions` table. -/
structure Session where
  id : String
  createdAt : ℕ
  updatedAt : ℕ
deriving DecidableEq

/-- A row of the `messages` table (vector-storage.js pushes
`{id, session_id, role, content, tokens, timestamp, is_summarized, embedding}`). -/
structure Message (E : Type) where
  id : ℕ
  session : String
  role : String
  content : String
  tokens : ℕ
  timestamp : ℕ
  summarized : Bool
  embedding : E
deriving DecidableEq

/-- A row of the `long_term_memory` table
(`{session_id, summary, created_at, embedding}`). -/
structure Memory (E : Type) where
  session : String
  summary : String
  createdAt : ℕ
  embedding : E
deriving DecidableEq

/-- The whole storage state: the three tables plus the message id counter. -/
structure State (E : Type) where
  sessions : List Session
  messages : List (Message E)
  memories : List (Memory E)
  nextId : ℕ
deriving DecidableEq

/-- A `{role, content}` record as used in contexts and query results. -/
structure ChatMsg where
  role : String
  content : String
deriving DecidableEq

/-- A `{id, role, content}` row as returned by the unsummarized-batch query. -/
structure BatchRow where
  id : ℕ
  role : String
  content : String
deriving DecidableEq

/-- A `{content, role, similarity}` record returned by `semanticSearch`. -/
structure SearchResult where
  content : String
  role : String
  similarity : ℝ

/-! ### Stable sorting (JS `Array.prototype.sort` is stable, ES2019) -/

/-- Insert `x` into a list, placing it before the first element whose key is
`≤ key x`.  Folding this over a list yields exactly a stable descending sort:
the element inserted last (originally first) lands before equal keys. -/
def insertDescBy {α β : Type} [LinearOrder β] (key : α → β) (x : α) : List α → List α
  | [] => [x]
  | y :: ys => if key y ≤ key x then x :: y :: ys else y :: insertDescBy key x ys

/-- Stable sort by descending key — the comparator `(a, b) => b.k - a.k`. -/
def sortDescBy {α β : Type} [LinearOrder β] (key : α → β) : List α → List α
  | [] => []
  | x :: xs => insertDescBy key x (sortDescBy key xs)

/-- Insert `x` before the first element whose key is `≥ key x` (stable ascending). -/
def insertAscBy {α β : Type} [LinearOrder β] (key : α → β) (x : α) : List α → List α
  | [] => [x]
  | y :: ys => if key x ≤ key y then x :: y :: ys else y :: insertAscBy key x ys

/-- Stable sort by ascending key — the comparator `(a, b) => a.k - b.k`. -/
def sortAscBy {α β : Type} [LinearOrder β] (key : α → β) : List α → List α
  | [] => []
  | x :: xs => insertAscBy key x (sortAscBy key xs)

/-! ### Core functions of the server (`server.js`) -/

/-- `estimateTokens`: `Math.ceil(chinese / 1.5 + other / 4)` where `chinese`
counts characters in `[一, 龥]`.  For naturals `c, o` this equals
`⌈(8c + 3o) / 12⌉ = (8c + 3o + 11) / 12` (floor division). -/
def estimateTokens (text : String) : ℕ :=
  let chinese := (text.data.filter (fun c => decide (0x4e00 ≤ c.toNat ∧ c.toNat ≤ 0x9fa5))).length
  let other := text.length - chinese
  (8 * chinese + 3 * other + 11) / 12

/-- `ensureSession`: `INSERT OR IGNORE INTO sessions` — add the session row
only when no row with this id exists. -/
def ensureSession {E : Type} (s : State E) (sid : String) (now : ℕ) : State E :=
  if s.sessions.any (fun x => decide (x.id = sid)) then s
  else State.mk (s.sessions ++ [Session.mk sid now now]) s.messages s.memories s.nextId

/-- `UPDATE sessions SET updated_at = ? WHERE id = ?`. -/
def touchSession {E : Type} (s : State E) (sid : String) (now : ℕ) : State E :=
  State.mk
    (s.sessions.map (fun x => if x.id = sid then Session.mk x.id x.createdAt now else x))
    s.messages s.memories s.nextId

/-- `saveMessage`: estimate tokens, `INSERT INTO messages` (the storage layer
attaches the embedding `e` and a fresh id), then touch the session. -/
def saveMessage {E : Type} (s : State E) (sid role content : String) (now : ℕ) (e : E) :
    State E :=
  touchSession
    (State.mk s.sessions
      (s.messages ++ [Message.mk s.nextId sid role content (estimateTokens content) now false e])
      s.memories (s.nextId + 1))
    sid now

/-- `getMessageCount`: `SELECT COUNT(*) FROM messages WHERE session_id = ? AND
is_summarized = 0`. -/
def getMessageCount {E : Type} (s : State E) (sid : String) : ℕ :=
  (s.messages.filter (fun m => decide (m.session = sid ∧ m.summarized = false))).length

/-- `getRecentHistory`: filter session + unsummarized, `ORDER BY timestamp
DESC LIMIT ?`, project to `{role, content}`, then the server `.reverse()`s. -/
def getRecentHistory {E : Type} (s : State E) (sid : String) (limit : ℕ) : List ChatMsg :=
  ((((sortDescBy (fun m => m.timestamp)
        (s.messages.filter (fun m => decide (m.session = sid ∧ m.summarized = false)))).take
      limit).map (fun m => ChatMsg.mk m.role m.content)).reverse)

/-- The same query before the `{role, content}` projection (used to state
order properties of the window). -/
def recentFull {E : Type} (s : State E) (sid : String) (limit : ℕ) : List (Message E) :=
  (((sortDescBy (fun m => m.timestamp)
      (s.messages.filter (fun m => decide (m.session = sid ∧ m.summarized = false)))).take
    limit)).reverse

/-- `getLongTermMemory`: `SELECT summary FROM long_term_memory WHERE
session_id = ? ORDER BY created_at ASC` (rows are `{summary}`; we keep the
summary strings). -/
def getLongTermMemory {E : Type} (s : State E) (sid : String) : List String :=
  (sortAscBy (fun m => m.createdAt) (s.memories.filter (fun m => decide (m.session = sid)))).map
    (fun m => m.summary)

/-- The `SELECT id, role, content ... is_summarized = 0 ORDER BY timestamp
ASC` query opening `generateSummary`. -/
def unsummarizedBatch {E : Type} (s : State E) (sid : String) : List BatchRow :=
  (sortAscBy (fun m => m.timestamp)
      (s.messages.filter (fun m => decide (m.session = sid ∧ m.summarized = false)))).map
    (fun m => BatchRow.mk m.id m.role m.content)

/-- Replace the first element satisfying `p` by its image under `f`
(`Array.prototype.find` followed by a mutation). -/
def updateFirst {α : Type} (p : α → Bool) (f : α → α) : List α → List α
  | [] => []
  | x :: xs => if p x then f x :: xs else x :: updateFirst p f xs

/-- One `UPDATE messages SET is_summarized = 1 WHERE id = ?` run:
`messages.find(m => m.id === id)` and set its flag. -/
def markOne {E : Type} (s : State E) (msgId : ℕ) : State E :=
  State.mk s.sessions
    (updateFirst (fun m => decide (m.id = msgId))
      (fun m => Message.mk m.id m.session m.role m.content m.tokens m.timestamp true m.embedding)
      s.messages)
    s.memories s.nextId

/-- The "transaction" loop in `generateSummary`: run the update per id. -/
def markSummarized {E : Type} (s : State E) (ids : List ℕ) : State E :=
  ids.foldl markOne s

/-- `INSERT INTO long_term_memory (session_id, summary, created_at)` (the
storage layer attaches the embedding of the summary). -/
def appendMemory {E : Type} (s : State E) (sid summary : String) (now : ℕ) (e : E) : State E :=
  State.mk s.sessions s.messages (s.memories ++ [Memory.mk sid summary now e]) s.nextId

/-- `generateSummary`: read the unsummarized batch; return unchanged when it
has fewer than 5 rows; call the summary API (`apiResult`); on failure the
`catch` logs and nothing is persisted; on success insert the long-term row
and mark every batch id summarized. -/
def generateSummary {E : Type} (s : State E) (sid : String) (now : ℕ)
    (apiResult : Option String) (e : E) : State E :=
  let batch := unsummarizedBatch s sid
  if batch.length < 5 then s
  else
    match apiResult with
    | none => s
    | some summary => markSummarized (appendMemory s sid summary now e) (batch.map (fun r => r.id))

/-- The fixed persona system instruction pushed first by `buildContext`. -/
def personaText : String :=
  "你是一个友好、有记忆的助手。你能记住之前的对话内容，并根据历史信息提供连贯的回复。"

/-- The header prepended to the joined summaries in the second system message. -/
def summaryHeaderText : String := "以下是之前对话的摘要信息：\n"

/-- `buildContext`: persona system message, then (only when long-term memory
is non-empty) one system message with the summaries joined by blank lines,
then the short-term window re-projected to `{role, content}`. -/
def buildContext {E : Type} (s : State E) (sid : String) : List ChatMsg :=
  let base := [ChatMsg.mk "system" personaText]
  let longTerm := getLongTermMemory s sid
  let withSummary :=
    if 0 < longTerm.length then
      base ++ [ChatMsg.mk "system" (summaryHeaderText ++ String.intercalate "\n\n" longTerm)]
    else base
  withSummary ++
    (getRecentHistory s sid (MAX_SHORT_TERM_ROUNDS * 2)).map (fun m => ChatMsg.mk m.role m.content)

/-- The trigger check of `POST /api/chat`: after the user append, read the
unsummarized count and run `generateSummary` iff it is positive and divisible
by `SUMMARY_TRIGGER_ROUNDS`. -/
def afterTrigger {E : Type} (s : State E) (sid : String) (now : ℕ)
    (summaryApi : Option String) (e : E) : State E :=
  let cnt := getMessageCount s sid
  if 0 < cnt ∧ cnt % SUMMARY_TRIGGER_ROUNDS = 0 then generateSummary s sid now summaryApi e else s

/-- The `POST /api/chat` handler: ensure session, append the user message,
trigger check, build context, call the chat API — on failure the catch sends
a 500 and the assistant message is not saved; on success append the
assistant reply and return it. -/
def handleChat {E : Type} (s : State E) (sid msg : String) (tU tS tA : ℕ) (eU : E)
    (summaryApi : Option String) (eM : E) (chatApi : Option String) (eA : E) :
    State E × Option String :=
  let s2 := saveMessage (ensureSession s sid tU) sid "user" msg tU eU
  let s3 := afterTrigger s2 sid tS summaryApi eM
  match chatApi with
  | none => (s3, none)
  | some reply => (saveMessage s3 sid "assistant" reply tA eA, some reply)

/-! ### Fallback embedding and cosine similarity (`vector-storage.js`) -/

/-- `vector[i] += 1` on a numeric array: set index `i` to its value plus one. -/
def bump (v : List ℕ) (i : ℕ) : List ℕ := v.set i (v.getD i 0 + 1)

/-- The character-code histogram of `simpleEmbedding`: start from 128 zeros
and increment bucket `charCode % 128` for every character. -/
def histogram (text : List ℕ) : List ℕ :=
  text.foldl (fun v c => bump v (c % 128)) (List.replicate 128 0)

/-- `vector.reduce((sum, val) => sum + val * val, 0)`. -/
def sumSq (v : List ℕ) : ℕ := (v.map (fun x => x * x)).sum

/-- `simpleEmbedding`: histogram, then `vector.map(v => v / (magnitude || 1))`
where `magnitude` is the Euclidean norm — JS `||` substitutes 1 when the
norm is 0 (falsy). -/
noncomputable def simpleEmbedding (text : List ℕ) : List ℝ :=
  let vector := histogram text
  let magnitude : ℝ := Real.sqrt (sumSq vector)
  vector.map (fun v : ℕ => (v : ℝ) / (if magnitude = 0 then 1 else magnitude))

/-- The fallback embedding as the spec words it: the histogram divided
componentwise by its Euclidean norm, left unchanged when the norm is zero. -/
noncomputable def specFallbackEmbedding (text : List ℕ) : List ℝ :=
  let h : List ℝ := (histogram text).map (fun v : ℕ => (v : ℝ))
  let n : ℝ := Real.sqrt (sumSq (histogram text))
  if n = 0 then h else h.map (fun v => v / n)

/-- Sum of pairwise products — the accumulator loops of `cosineSimilarity`
(`dotProduct`, `normA`, `normB`), which run over the indices of the first
argument; for the equal-dimension inputs the claims address this is the dot
product. -/
def dotList (a b : List ℝ) : ℝ := (List.zipWith (fun x y => x * y) a b).sum

/-- `cosineSimilarity`: dot product over the norms' product. -/
noncomputable def cosineSimilarity (a b : List ℝ) : ℝ :=
  dotList a b / (Real.sqrt (dotList a a) * Real.sqrt (dotList b b))

/-- The `results` array of `semanticSearch`: the session's messages (no tier
filter), each scored by cosine similarity to the query embedding. -/
noncomputable def scoredCandidates (s : State (List ℝ)) (sid : String)
    (queryEmbedding : List ℝ) : List SearchResult :=
  (s.messages.filter (fun m => decide (m.session = sid))).map
    (fun m => SearchResult.mk m.content m.role (cosineSimilarity queryEmbedding m.embedding))

/-- `semanticSearch`: score the session's messages, stable-sort by descending
similarity (`(a, b) => b.similarity - a.similarity`), `slice(0, limit)`. -/
noncomputable def semanticSearch (s : State (List ℝ)) (sid : String)
    (queryEmbedding : List ℝ) (limit : ℕ) : List SearchResult :=
  (sortDescBy (fun r : SearchResult => r.similarity)
    (scoredCandidates s sid queryEmbedding)).take limit

/-! ### Concrete states and run harness used by the end-to-end claims -/

/-- The stores at startup: empty tables, `messageIdCounter = 1`. -/
def freshState : State Unit := State.mk [] [] [] 1

/-- Run `n` fully successful chat round-trips on session `"s1"` (user message
at time `t`, assistant reply at `t + 1`, both external calls succeeding). -/
def runTurns : ℕ → State Unit → ℕ → State Unit
  | 0, s, _ => s
  | n + 1, s, t =>
      runTurns n (handleChat s "s1" "hi" t t (t + 1) () (some "sum") () (some "ok") ()).1 (t + 2)

/-- The operations the repository performs on the stored state. -/
inductive DbOp (E : Type) where
  | ensure (sid : String) (t : ℕ)
  | touch (sid : String) (t : ℕ)
  | save (sid role content : String) (t : ℕ) (e : E)
  | mark (ids : List ℕ)
  | appendSum (sid text : String) (t : ℕ) (e : E)
  | summarize (sid : String) (t : ℕ) (api : Option String) (e : E)
  | turn (sid msg : String) (tU tS tA : ℕ) (eU : E) (sumApi : Option String) (eM : E)
      (chatApi : Option String) (eA : E)

/-- Interpret an operation as a state transformer. -/
def applyOp {E : Type} : DbOp E → State E → State E
  | DbOp.ensure sid t, s => ensureSession s sid t
  | DbOp.touch sid t, s => touchSession s sid t
  | DbOp.save sid role content t e, s => saveMessage s sid role content t e
  | DbOp.mark ids, s => markSummarized s ids
  | DbOp.appendSum sid text t e, s => appendMemory s sid text t e
  | DbOp.summarize sid t api e, s => generateSummary s sid t api e
  | DbOp.turn sid msg tU tS tA eU sumApi eM chatApi eA, s =>
      (handleChat s sid msg tU tS tA eU sumApi eM chatApi eA).1

/-- Observable evolution of one stored message: every field except the
summarized flag is unchanged, and the flag may only go `false → true`. -/
def msgObsLe {E : Type} (a b : Message E) : Prop :=
  a.id = b.id ∧ a.role = b.role ∧ a.content = b.content ∧ a.tokens = b.tokens ∧
    a.timestamp = b.timestamp ∧ (a.summarized = true → b.summarized = true)

/-- `t` extends `s` without rewriting history: the stored messages of `s` are
still present, in place, observably unchanged up to the flag transition;
anything else is appended after them. -/
def statePreserves {E : Type} (s t : State E) : Prop :=
  ∃ pre rest, t.messages = pre ++ rest ∧ List.Forall₂ msgObsLe s.messages pre

/-- A session with five unsummarized messages at timestamps 1..5. -/
def exC6State : State Unit :=
  State.mk [Session.mk "s1" 1 5]
    [Message.mk 1 "s1" "user" "m1" 1 1 false (), Message.mk 2 "s1" "user" "m2" 1 2 false (),
     Message.mk 3 "s1" "user" "m3" 1 3 false (), Message.mk 4 "s1" "user" "m4" 1 4 false (),
     Message.mk 5 "s1" "user" "m5" 1 5 false ()]
    [] 6

/-- A session whose messages have all been consumed by a summarization pass. -/
def allSummarizedState : State Unit :=
  State.mk [Session.mk "s1" 1 2]
    [Message.mk 1 "s1" "user" "a" 1 1 true (), Message.mk 2 "s1" "assistant" "b" 1 2 true ()]
    [] 3

/-- A session holding nine unsummarized messages (one more append reaches the
trigger threshold). -/
def nineState : State Unit :=
  State.mk [Session.mk "s1" 1 9]
    ((List.range 9).map (fun i => Message.mk (i + 1) "s1" "user" "m" 1 (i + 1) false ()))
    [] 10

/-! ## Theorems -/

/-! ### Lemmas about the stable sorts -/

theorem insertDescBy_perm {α β : Type} [LinearOrder β] (key : α → β) (x : α) (l : List α) :
    List.Perm (insertDescBy key x l) (x :: l) := by
  induction l with
  | nil => simp [insertDescBy]
  | cons y ys ih =>
    by_cases h : key y ≤ key x
    · simp [insertDescBy, h]
    · simp only [insertDescBy, h, if_false]
      exact (ih.cons y).trans (List.Perm.swap x y ys)

theorem sortDescBy_perm {α β : Type} [LinearOrder β] (key : α → β) (l : List α) :
    List.Perm (sortDescBy key l) l := by
  induction l with
  | nil => simp [sortDescBy]
  | cons x xs ih => exact (insertDescBy_perm key x (sortDescBy key xs)).trans (ih.cons x)

theorem insertDescBy_pairwise {α β : Type} [LinearOrder β] (key : α → β) (x : α) (l : List α)
    (h : List.Pairwise (fun a b => key b ≤ key a) l) :
    List.Pairwise (fun a b => key b ≤ key a) (insertDescBy key x l) := by
  induction l with
  | nil => simp [insertDescBy]
  | cons y ys ih =>
    rcases List.pairwise_cons.mp h with ⟨hy, hys⟩
    by_cases hle : key y ≤ key x
    · rw [insertDescBy, if_pos hle]
      refine List.pairwise_cons.mpr ⟨?_, h⟩
      intro z hz
      rcases List.mem_cons.mp hz with hz | hz
      · exact hz ▸ hle
      · exact (hy z hz).trans hle
    · rw [insertDescBy, if_neg hle]
      refine List.pairwise_cons.mpr ⟨?_, ih hys⟩
      intro z hz
      have hz2 : z ∈ x :: ys := (insertDescBy_perm key x ys).mem_iff.mp hz
      rcases List.mem_cons.mp hz2 with hz2 | hz2
      · exact hz2 ▸ (le_of_not_le hle)
      · exact hy z hz2

theorem sortDescBy_pairwise {α β : Type} [LinearOrder β] (key : α → β) (l : List α) :
    List.Pairwise (fun a b => key b ≤ key a) (sortDescBy key l) := by
  induction l with
  | nil => simp [sortDescBy]
  | cons x xs ih => exact insertDescBy_pairwise key x (sortDescBy key xs) ih

theorem insertDescBy_filter {α β : Type} [LinearOrder β] (key : α → β) (x : α) (l : List α)
    (c : β) :
    (insertDescBy key x l).filter (fun y => decide (key y = c)) =
      if key x = c then x :: l.filter (fun y => decide (key y = c))
      else l.filter (fun y => decide (key y = c)) := by
  induction l with
  | nil => by_cases hx : key x = c <;> simp [insertDescBy, hx]
  | cons y ys ih =>
    by_cases hle : key y ≤ key x
    · rw [insertDescBy, if_pos hle]
      by_cases hx : key x = c <;> by_cases hy : key y = c <;>
        simp [List.filter_cons, hx, hy]
    · rw [insertDescBy, if_neg hle]
      rw [List.filter_cons, ih]
      by_cases hx : key x = c <;> by_cases hy : key y = c
      · exact absurd (hy ▸ hx ▸ le_refl (key x)) hle
      all_goals simp [hx, hy]

theorem sortDescBy_filter {α β : Type} [LinearOrder β] (key : α → β) (l : List α) (c : β) :
    (sortDescBy key l).filter (fun y => decide (key y = c)) =
      l.filter (fun y => decide (key y = c)) := by
  induction l with
  | nil => simp [sortDescBy]
  | cons x xs ih =>
    by_cases hx : key x = c <;>
      simp [sortDescBy, insertDescBy_filter, hx, List.filter_cons, ih]

theorem insertAscBy_perm {α β : Type} [LinearOrder β] (key : α → β) (x : α) (l : List α) :
    List.Perm (insertAscBy key x l) (x :: l) := by
  induction l with
  | nil => simp [insertAscBy]
  | cons y ys ih =>
    by_cases h : key x ≤ key y
    · simp [insertAscBy, h]
    · simp only [insertAscBy, h, if_false]
      exact (ih.cons y).trans (List.Perm.swap x y ys)

theorem insertAscBy_pairwise {α β : Type} [LinearOrder β] (key : α → β) (x : α) (l : List α)
    (h : List.Pairwise (fun a b => key a ≤ key b) l) :
    List.Pairwise (fun a b => key a ≤ key b) (insertAscBy key x l) := by
  induction l with
  | nil => simp [insertAscBy]
  | cons y ys ih =>
    rcases List.pairwise_cons.mp h with ⟨hy, hys⟩
    by_cases hle : key x ≤ key y
    · rw [insertAscBy, if_pos hle]
      refine List.pairwise_cons.mpr ⟨?_, h⟩
      intro z hz
      rcases List.mem_cons.mp hz with hz | hz
      · exact hz ▸ hle
      · exact hle.trans (hy z hz)
    · rw [insertAscBy, if_neg hle]
      refine List.pairwise_cons.mpr ⟨?_, ih hys⟩
      intro z hz
      rcases List.mem_cons.mp ((insertAscBy_perm key x ys).mem_iff.mp hz) with hz2 | hz2
      · exact hz2 ▸ (le_of_not_le hle)
      · exact hy z hz2

theorem sortAscBy_pairwise {α β : Type} [LinearOrder β] (key : α → β) (l : List α) :
    List.Pairwise (fun a b => key a ≤ key b) (sortAscBy key l) := by
  induction l with
  | nil => simp [sortAscBy]
  | cons x xs ih => exact insertAscBy_pairwise key x (sortAscBy key xs) ih

theorem sorted_drop_le_take {α β : Type} [LinearOrder β] (key : α → β) (l : List α) (n : ℕ)
    (h : List.Pairwise (fun a b => key b ≤ key a) l) :
    ∀ x ∈ l.drop n, ∀ y ∈ l.take n, key x ≤ key y := by
  have hsplit := List.take_append_drop n l
  rw [← hsplit] at h
  rcases List.pairwise_append.mp h with ⟨_, _, hcross⟩
  exact fun x hx y hy => hcross y hy x hx

theorem bump_length (v : List ℕ) (i : ℕ) : (bump v i).length = v.length := by
  simp [bump]

theorem histogram_length (t : List ℕ) : (histogram t).length = 128 := by
  have h : ∀ (acc : List ℕ), (t.foldl (fun v c => bump v (c % 128)) acc).length = acc.length := by
    induction t with
    | nil => intro acc; rfl
    | cons c cs ih => intro acc; rw [List.foldl_cons, ih, bump_length]
  rw [histogram, h, List.length_replicate]

theorem sumSq_eq_zero_iff (v : List ℕ) : sumSq v = 0 ↔ ∀ x ∈ v, x = 0 := by
  simp [sumSq, List.sum_eq_zero_iff, mul_self_eq_zero]

theorem dotList_cons (x y : ℝ) (a b : List ℝ) :
    dotList (x :: a) (y :: b) = x * y + dotList a b := by
  simp [dotList]

theorem dotList_comm (a b : List ℝ) : dotList a b = dotList b a := by
  induction a generalizing b with
  | nil => cases b <;> simp [dotList]
  | cons x xs ih =>
    cases b with
    | nil => simp [dotList]
    | cons y ys => rw [dotList_cons, dotList_cons, ih, mul_comm]

theorem dotList_self_nonneg (a : List ℝ) : 0 ≤ dotList a a := by
  induction a with
  | nil => simp [dotList]
  | cons x xs ih => rw [dotList_cons]; nlinarith [mul_self_nonneg x]

theorem dotList_self_pos (a : List ℝ) (h : ∃ x ∈ a, x ≠ 0) : 0 < dotList a a := by
  induction a with
  | nil => simp at h
  | cons x xs ih =>
    rw [dotList_cons]
    rcases h with ⟨z, hz, hz0⟩
    rcases List.mem_cons.mp hz with rfl | hzz
    · have h1 : 0 < z * z := mul_self_pos.mpr hz0
      linarith [dotList_self_nonneg xs]
    · have h1 : 0 < dotList xs xs := ih ⟨z, hzz, hz0⟩
      linarith [mul_self_nonneg x]

/-- Cauchy–Schwarz for the pairwise-product sums. -/
theorem dotList_sq_le (a b : List ℝ) : (dotList a b) ^ 2 ≤ dotList a a * dotList b b := by
  induction a generalizing b with
  | nil => simp [dotList]
  | cons x xs ih =>
    cases b with
    | nil => simp [dotList, mul_nonneg (dotList_self_nonneg (x :: xs))]
    | cons y ys =>
      have hD := ih ys
      have hA := dotList_self_nonneg xs
      have hB := dotList_self_nonneg ys
      rw [dotList_cons, dotList_cons, dotList_cons]
      rcases hB.eq_or_lt with hB0 | hBpos
      · have hD0 : dotList xs ys = 0 := by
          have h1 : (dotList xs ys) ^ 2 ≤ 0 := by rw [← hB0] at hD; simpa using hD
          have h2 : (dotList xs ys) ^ 2 = 0 := le_antisymm h1 (sq_nonneg _)
          exact pow_eq_zero_iff two_ne_zero |>.mp h2
        rw [hD0, ← hB0]
        nlinarith [mul_nonneg hA (sq_nonneg y)]
      · nlinarith [sq_nonneg (x * dotList ys ys - y * dotList xs ys),
          mul_nonneg (add_nonneg (sq_nonneg y) hBpos.le) (sub_nonneg.mpr hD), hBpos]


/-! ### Projection lemmas for the state transformers -/

theorem messages_ensureSession {E : Type} (s : State E) (sid : String) (t : ℕ) :
    (ensureSession s sid t).messages = s.messages := by
  unfold ensureSession; split <;> rfl

theorem memories_ensureSession {E : Type} (s : State E) (sid : String) (t : ℕ) :
    (ensureSession s sid t).memories = s.memories := by
  unfold ensureSession; split <;> rfl

theorem messages_saveMessage {E : Type} (s : State E) (sid role c : String) (t : ℕ) (e : E) :
    (saveMessage s sid role c t e).messages =
      s.messages ++ [Message.mk s.nextId sid role c (estimateTokens c) t false e] := rfl

theorem memories_saveMessage {E : Type} (s : State E) (sid role c : String) (t : ℕ) (e : E) :
    (saveMessage s sid role c t e).memories = s.memories := rfl

theorem getMessageCount_saveMessage {E : Type} (s : State E) (sid role c : String) (t : ℕ)
    (e : E) : getMessageCount (saveMessage s sid role c t e) sid = getMessageCount s sid + 1 := by
  unfold getMessageCount
  rw [messages_saveMessage, List.filter_append]
  simp

theorem getMessageCount_ensureSession {E : Type} (s : State E) (sid : String) (t : ℕ)
    (sid2 : String) : getMessageCount (ensureSession s sid t) sid2 = getMessageCount s sid2 := by
  unfold getMessageCount
  rw [messages_ensureSession]

/-- One successful round-trip on session `"s1"`: the count read by the
trigger check is `2k + 1` (odd), which is never divisible by 10, so the
summarizer is not invoked; the turn just appends the two messages. -/
theorem turn_step (s : State Unit) (t k : ℕ) (h1 : s.memories = [])
    (h2 : getMessageCount s "s1" = 2 * k) :
    (handleChat s "s1" "hi" t t (t + 1) () (some "sum") () (some "ok") ()).1.memories = [] ∧
    getMessageCount (handleChat s "s1" "hi" t t (t + 1) () (some "sum") () (some "ok") ()).1
      "s1" = 2 * (k + 1) := by
  have hcnt2 : getMessageCount (saveMessage (ensureSession s "s1" t) "s1" "user" "hi" t ())
      "s1" = 2 * k + 1 := by
    rw [getMessageCount_saveMessage, getMessageCount_ensureSession, h2]
  have hodd : ¬(0 < 2 * k + 1 ∧ (2 * k + 1) % SUMMARY_TRIGGER_ROUNDS = 0) := by
    intro h
    have h10 := h.2
    unfold SUMMARY_TRIGGER_ROUNDS at h10
    omega
  have htrig : afterTrigger (saveMessage (ensureSession s "s1" t) "s1" "user" "hi" t ())
      "s1" t (some "sum") () = saveMessage (ensureSession s "s1" t) "s1" "user" "hi" t () := by
    show (if 0 < getMessageCount (saveMessage (ensureSession s "s1" t) "s1" "user" "hi" t ())
            "s1" ∧
          getMessageCount (saveMessage (ensureSession s "s1" t) "s1" "user" "hi" t ()) "s1" %
            SUMMARY_TRIGGER_ROUNDS = 0 then
        generateSummary (saveMessage (ensureSession s "s1" t) "s1" "user" "hi" t ()) "s1" t
          (some "sum") ()
      else saveMessage (ensureSession s "s1" t) "s1" "user" "hi" t ()) =
      saveMessage (ensureSession s "s1" t) "s1" "user" "hi" t ()
    rw [hcnt2, if_neg hodd]
  have hturn : (handleChat s "s1" "hi" t t (t + 1) () (some "sum") () (some "ok") ()).1 =
      saveMessage (afterTrigger (saveMessage (ensureSession s "s1" t) "s1" "user" "hi" t ())
        "s1" t (some "sum") ()) "s1" "assistant" "ok" (t + 1) () := rfl
  rw [hturn, htrig]
  constructor
  · rw [memories_saveMessage, memories_saveMessage, memories_ensureSession, h1]
  · rw [getMessageCount_saveMessage, hcnt2]
    omega

theorem getRecentHistory_eq_recentFull {E : Type} (s : State E) (sid : String) (n : ℕ) :
    getRecentHistory s sid n =
      (recentFull s sid n).map (fun m => ChatMsg.mk m.role m.content) := by
  unfold getRecentHistory recentFull
  rw [List.map_reverse]

theorem recentFull_length_le {E : Type} (s : State E) (sid : String) (n : ℕ) :
    (recentFull s sid n).length ≤ n := by
  unfold recentFull
  rw [List.length_reverse, List.length_take]
  exact min_le_left _ _

theorem recentFull_chronological {E : Type} (s : State E) (sid : String) (n : ℕ) :
    List.Pairwise (fun a b => a.timestamp ≤ b.timestamp) (recentFull s sid n) := by
  unfold recentFull
  rw [List.pairwise_reverse]
  exact List.Pairwise.sublist (List.take_sublist n _)
    (sortDescBy_pairwise (fun m : Message E => m.timestamp)
      (s.messages.filter (fun m => decide (m.session = sid ∧ m.summarized = false))))

/-! ### Claim theorems -/

/-- Claim C1 (refuted — code bug): on a fresh session, the trigger check runs
right after the user append, so it always reads an odd unsummarized count
(`2k + 1`), never divisible by `SUMMARY_TRIGGER_ROUNDS = 10`.  Hence `n`
fully successful round-trips — in particular the `k × 10` of the claim —
produce ZERO persisted MemoryRecords, and `countUnsummarized` ends at `2n`,
not 0: the promised 10th-round summarization never happens. -/
theorem claim1_trigger_never_fires (n k t : ℕ) (s : State Unit) (h1 : s.memories = [])
    (h2 : getMessageCount s "s1" = 2 * k) :
    (runTurns n s t).memories = [] ∧ getMessageCount (runTurns n s t) "s1" = 2 * (k + n) := by
  induction n generalizing s t k with
  | zero =>
    refine ⟨h1, ?_⟩
    show getMessageCount s "s1" = 2 * (k + 0)
    rw [h2]
    omega
  | succ m ih =>
    rw [runTurns]
    have hstep := turn_step s t k h1 h2
    have hres := ih (k + 1) (t + 2) _ hstep.1 hstep.2
    refine ⟨hres.1, ?_⟩
    rw [hres.2]
    omega

/-- Witness for C1's refutation at the spec's own scenario: a fresh store and
ten successful round-trips on session `"s1"` end with zero MemoryRecords and
`countUnsummarized = 20` (the claim demanded one record and count 0). -/
theorem claim1_witness :
    freshState.memories = [] ∧ getMessageCount freshState "s1" = 2 * 0 ∧
    ((runTurns 10 freshState 0).memories = [] ∧
      getMessageCount (runTurns 10 freshState 0) "s1" = 2 * (0 + 10)) :=
  ⟨rfl, rfl, claim1_trigger_never_fires 10 0 0 freshState rfl rfl⟩

/-- Claim C2: after every successful user append the handler reads the
session's unsummarized count and runs the summarizer exactly when that count
is positive and divisible by `SUMMARY_TRIGGER_ROUNDS`; and `generateSummary`
is a no-op (nothing persisted, nothing marked) whenever the unsummarized
batch holds fewer than 5 messages. -/
theorem claim2_trigger_policy (E : Type) (s : State E) (sid msg : String) (tU tS : ℕ)
    (eU eM : E) (api : Option String) :
    ((0 < getMessageCount (saveMessage (ensureSession s sid tU) sid "user" msg tU eU) sid ∧
        getMessageCount (saveMessage (ensureSession s sid tU) sid "user" msg tU eU) sid %
          SUMMARY_TRIGGER_ROUNDS = 0) →
      afterTrigger (saveMessage (ensureSession s sid tU) sid "user" msg tU eU) sid tS api eM =
        generateSummary (saveMessage (ensureSession s sid tU) sid "user" msg tU eU) sid tS api
          eM) ∧
    (¬(0 < getMessageCount (saveMessage (ensureSession s sid tU) sid "user" msg tU eU) sid ∧
        getMessageCount (saveMessage (ensureSession s sid tU) sid "user" msg tU eU) sid %
          SUMMARY_TRIGGER_ROUNDS = 0) →
      afterTrigger (saveMessage (ensureSession s sid tU) sid "user" msg tU eU) sid tS api eM =
        saveMessage (ensureSession s sid tU) sid "user" msg tU eU) ∧
    (∀ (s2 : State E) (t2 : ℕ) (api2 : Option String) (e2 : E),
      (unsummarizedBatch s2 sid).length < 5 → generateSummary s2 sid t2 api2 e2 = s2) := by
  refine ⟨?_, ?_, ?_⟩
  · intro h
    show (if 0 < getMessageCount (saveMessage (ensureSession s sid tU) sid "user" msg tU eU)
            sid ∧
          getMessageCount (saveMessage (ensureSession s sid tU) sid "user" msg tU eU) sid %
            SUMMARY_TRIGGER_ROUNDS = 0 then
        generateSummary (saveMessage (ensureSession s sid tU) sid "user" msg tU eU) sid tS api
          eM
      else saveMessage (ensureSession s sid tU) sid "user" msg tU eU) = _
    rw [if_pos h]
  · intro h
    show (if 0 < getMessageCount (saveMessage (ensureSession s sid tU) sid "user" msg tU eU)
            sid ∧
          getMessageCount (saveMessage (ensureSession s sid tU) sid "user" msg tU eU) sid %
            SUMMARY_TRIGGER_ROUNDS = 0 then
        generateSummary (saveMessage (ensureSession s sid tU) sid "user" msg tU eU) sid tS api
          eM
      else saveMessage (ensureSession s sid tU) sid "user" msg tU eU) = _
    rw [if_neg h]
  · intro s2 t2 api2 e2 hlt
    show (if (unsummarizedBatch s2 sid).length < 5 then s2
      else match api2 with
        | none => s2
        | some summary =>
            markSummarized (appendMemory s2 sid summary t2 e2)
              ((unsummarizedBatch s2 sid).map (fun r => r.id))) = s2
    rw [if_pos hlt]

/-- Witness for C2: on a store holding nine unsummarized `"s1"` messages the
user append brings the count to 10 and the check fires; on a fresh store it
reads 1 and does not; and on a fresh store the summarizer guard (batch of 0
< 5) returns the state unchanged. -/
theorem claim2_witness :
    (afterTrigger (saveMessage (ensureSession nineState "s1" 100) "s1" "user" "q" 100 ()) "s1"
        101 (some "S") () =
      generateSummary (saveMessage (ensureSession nineState "s1" 100) "s1" "user" "q" 100 ())
        "s1" 101 (some "S") ()) ∧
    (afterTrigger (saveMessage (ensureSession freshState "s1" 100) "s1" "user" "q" 100 ()) "s1"
        101 (some "S") () =
      saveMessage (ensureSession freshState "s1" 100) "s1" "user" "q" 100 ()) ∧
    generateSummary freshState "s1" 5 (some "S") () = freshState :=
  ⟨(claim2_trigger_policy Unit nineState "s1" "q" 100 101 () () (some "S")).1 (by decide),
   (claim2_trigger_policy Unit freshState "s1" "q" 100 101 () () (some "S")).2.1 (by decide),
   (claim2_trigger_policy Unit freshState "s1" "q" 100 101 () () (some "S")).2.2 freshState 5
     (some "S") () (by decide)⟩

/-- Claim C3: a failed external completion call inside a summarization pass
(network error or malformed response, modelled as result `none`) persists no
summary and flips no flag — `generateSummary` returns the state unchanged —
and the in-flight chat turn still completes: its final state and reply are
exactly those of a turn that never touched the summarizer. -/
theorem claim3_summary_failure_is_noop (E : Type) (s : State E) (sid : String) (tS : ℕ)
    (eM : E) :
    generateSummary s sid tS none eM = s ∧
    (∀ (msg : String) (tU tA : ℕ) (eU eA : E) (reply : String),
      handleChat s sid msg tU tS tA eU none eM (some reply) eA =
        (saveMessage (saveMessage (ensureSession s sid tU) sid "user" msg tU eU) sid "assistant"
          reply tA eA, some reply)) := by
  have hgen : ∀ (s2 : State E), generateSummary s2 sid tS none eM = s2 := by
    intro s2
    unfold generateSummary
    split <;> simp_all
  refine ⟨hgen s, ?_⟩
  intro msg tU tA eU eA reply
  simp only [handleChat, afterTrigger, hgen, ite_self]

/-- Claim C4: the local fallback embedding coincides with the spec's
function — the mod-128 character-code histogram divided componentwise by its
Euclidean norm, left unchanged when the norm is zero —, is deterministic, and
on the empty string yields the length-128 zero vector; its divisor is never
zero and the output always has length 128. -/
theorem claim4_fallback_embedding :
    (∀ t : List ℕ, simpleEmbedding t = specFallbackEmbedding t) ∧
    (∀ t : List ℕ, simpleEmbedding t = simpleEmbedding t) ∧
    simpleEmbedding [] = List.replicate 128 (0 : ℝ) ∧
    (∀ t : List ℕ, (simpleEmbedding t).length = 128) ∧
    (∀ t : List ℕ,
      (if Real.sqrt ((sumSq (histogram t) : ℕ) : ℝ) = 0 then (1 : ℝ)
        else Real.sqrt ((sumSq (histogram t) : ℕ) : ℝ)) ≠ 0) := by
  have hrep : ∀ n : ℕ, sumSq (List.replicate n 0) = 0 := by
    intro n
    induction n with
    | zero => rfl
    | succ m ih => simp [sumSq, List.replicate_succ] at ih ⊢
  have hist0 : histogram ([] : List ℕ) = List.replicate 128 0 := rfl
  refine ⟨?_, fun t => rfl, ?_, ?_, ?_⟩
  · intro t
    show (histogram t).map (fun v : ℕ => (v : ℝ) /
        (if Real.sqrt (sumSq (histogram t)) = 0 then 1 else Real.sqrt (sumSq (histogram t)))) =
      (if Real.sqrt (sumSq (histogram t)) = (0 : ℝ) then (histogram t).map (fun v : ℕ => (v : ℝ))
       else ((histogram t).map (fun v : ℕ => (v : ℝ))).map
         (fun v => v / Real.sqrt (sumSq (histogram t))))
    by_cases hm : Real.sqrt (sumSq (histogram t)) = (0 : ℝ)
    · rw [if_pos hm]
      simp [hm, div_one]
    · rw [if_neg hm]
      simp only [hm, if_false, List.map_map]
      rfl
  · show (histogram []).map (fun v : ℕ => (v : ℝ) /
        (if Real.sqrt (sumSq (histogram [])) = 0 then 1 else Real.sqrt (sumSq (histogram [])))) =
      List.replicate 128 (0 : ℝ)
    rw [hist0, hrep 128]
    simp
  · intro t
    show ((histogram t).map (fun v : ℕ => (v : ℝ) /
        (if Real.sqrt (sumSq (histogram t)) = 0 then 1
          else Real.sqrt (sumSq (histogram t))))).length = 128
    rw [List.length_map]
    exact histogram_length t
  · intro t
    split
    · exact one_ne_zero
    · next h => exact h

/-- Claim C5: the assembled context is exactly one fixed persona system
message; then, iff the session has at least one long-term summary, exactly
one more system message holding all summaries joined by blank lines in
createdAt-ascending order; then the short-term window (at most
`MAX_SHORT_TERM_ROUNDS × 2 = 12` most recent unsummarized messages,
chronological, original roles); and nothing else. -/
theorem claim5_context_assembly (E : Type) (s : State E) (sid : String) :
    buildContext s sid =
      ChatMsg.mk "system" personaText ::
        ((if 0 < (getLongTermMemory s sid).length then
            [ChatMsg.mk "system"
              (summaryHeaderText ++ String.intercalate "\n\n" (getLongTermMemory s sid))]
          else []) ++
          (recentFull s sid (MAX_SHORT_TERM_ROUNDS * 2)).map
            (fun m => ChatMsg.mk m.role m.content)) ∧
    (recentFull s sid (MAX_SHORT_TERM_ROUNDS * 2)).length ≤ MAX_SHORT_TERM_ROUNDS * 2 ∧
    List.Pairwise (fun a b => a.createdAt ≤ b.createdAt)
      (sortAscBy (fun m : Memory E => m.createdAt)
        (s.memories.filter (fun m => decide (m.session = sid)))) ∧
    List.Pairwise (fun a b => a.timestamp ≤ b.timestamp)
      (recentFull s sid (MAX_SHORT_TERM_ROUNDS * 2)) := by
  refine ⟨?_, recentFull_length_le s sid _, ?_, recentFull_chronological s sid _⟩
  · show ((if 0 < (getLongTermMemory s sid).length then
        [ChatMsg.mk "system" personaText] ++
          [ChatMsg.mk "system"
            (summaryHeaderText ++ String.intercalate "\n\n" (getLongTermMemory s sid))]
      else [ChatMsg.mk "system" personaText]) ++
      (getRecentHistory s sid (MAX_SHORT_TERM_ROUNDS * 2)).map
        (fun m => ChatMsg.mk m.role m.content)) = _
    rw [getRecentHistory_eq_recentFull, List.map_map]
    by_cases hl : 0 < (getLongTermMemory s sid).length
    · rw [if_pos hl, if_pos hl]
      rfl
    · rw [if_neg hl, if_neg hl]
      rfl
  · exact sortAscBy_pairwise (fun m : Memory E => m.createdAt)
      (s.memories.filter (fun m => decide (m.session = sid)))

/-- Claim C6: `recent(sessionId, n)` equals ranking the session's
unsummarized messages by descending timestamp, taking `n`, projecting and
reversing; the window is chronological (oldest first); every omitted
(dropped) message is no newer than every kept one; and on a session with
all-unsummarized messages at timestamps [1,2,3,4,5], `recent(_, 4)` returns
the messages at [2,3,4,5] in that order. -/
theorem claim6_recent_window (E : Type) (s : State E) (sid : String) (n : ℕ) :
    getRecentHistory s sid n =
      (((sortDescBy (fun m : Message E => m.timestamp)
          (s.messages.filter (fun m => decide (m.session = sid ∧ m.summarized = false)))).take
        n).map (fun m => ChatMsg.mk m.role m.content)).reverse ∧
    List.Pairwise (fun a b => a.timestamp ≤ b.timestamp) (recentFull s sid n) ∧
    (∀ x ∈ (sortDescBy (fun m : Message E => m.timestamp)
        (s.messages.filter (fun m => decide (m.session = sid ∧ m.summarized = false)))).drop n,
      ∀ y ∈ (sortDescBy (fun m : Message E => m.timestamp)
        (s.messages.filter (fun m => decide (m.session = sid ∧ m.summarized = false)))).take n,
      x.timestamp ≤ y.timestamp) ∧
    getRecentHistory exC6State "s1" 4 =
      [ChatMsg.mk "user" "m2", ChatMsg.mk "user" "m3", ChatMsg.mk "user" "m4",
        ChatMsg.mk "user" "m5"] := by
  refine ⟨rfl, recentFull_chronological s sid n, ?_, by decide⟩
  exact sorted_drop_le_take (fun m : Message E => m.timestamp) _ n
    (sortDescBy_pairwise (fun m : Message E => m.timestamp)
      (s.messages.filter (fun m => decide (m.session = sid ∧ m.summarized = false))))

/-- Witness for C6 on the five-message session: the message dropped by
`recent(_, 4)` (timestamp 1) is in the dropped part, the newest kept message
(timestamp 5) is in the kept part, and the theorem yields 1 ≤ 5. -/
theorem claim6_witness :
    Message.mk 1 "s1" "user" "m1" 1 1 false () ∈
      (sortDescBy (fun m : Message Unit => m.timestamp)
        (exC6State.messages.filter
          (fun m => decide (m.session = "s1" ∧ m.summarized = false)))).drop 4 ∧
    Message.mk 5 "s1" "user" "m5" 1 5 false () ∈
      (sortDescBy (fun m : Message Unit => m.timestamp)
        (exC6State.messages.filter
          (fun m => decide (m.session = "s1" ∧ m.summarized = false)))).take 4 ∧
    (Message.mk 1 "s1" "user" "m1" 1 1 false ()).timestamp ≤
      (Message.mk 5 "s1" "user" "m5" 1 5 false ()).timestamp :=
  ⟨by decide, by decide,
   (claim6_recent_window Unit exC6State "s1" 4).2.2.1
     (Message.mk 1 "s1" "user" "m1" 1 1 false ()) (by decide)
     (Message.mk 5 "s1" "user" "m5" 1 5 false ()) (by decide)⟩

/-- Claim C7: semantic retrieval considers exactly the session's messages
(both tiers) as candidates — the sorted list is a permutation of the scored
candidates —, sorts them by descending cosine-similarity score, preserves the
original storage order on score ties (filtering the sort by any score value
gives the original filter), and truncates to `limit`, returning all
candidates when fewer exist (the output length is `min limit candidates`). -/
theorem claim7_semantic_search (s : State (List ℝ)) (sid : String) (q : List ℝ) (n : ℕ) :
    semanticSearch s sid q n =
      (sortDescBy (fun r : SearchResult => r.similarity) (scoredCandidates s sid q)).take n ∧
    scoredCandidates s sid q =
      (s.messages.filter (fun m => decide (m.session = sid))).map
        (fun m => SearchResult.mk m.content m.role (cosineSimilarity q m.embedding)) ∧
    List.Perm (sortDescBy (fun r : SearchResult => r.similarity) (scoredCandidates s sid q))
      (scoredCandidates s sid q) ∧
    List.Pairwise (fun a b => b.similarity ≤ a.similarity)
      (sortDescBy (fun r : SearchResult => r.similarity) (scoredCandidates s sid q)) ∧
    (∀ c : ℝ,
      (sortDescBy (fun r : SearchResult => r.similarity) (scoredCandidates s sid q)).filter
          (fun r => decide (r.similarity = c)) =
        (scoredCandidates s sid q).filter (fun r => decide (r.similarity = c))) ∧
    (semanticSearch s sid q n).length = min n (scoredCandidates s sid q).length := by
  refine ⟨rfl, rfl,
    sortDescBy_perm (fun r : SearchResult => r.similarity) (scoredCandidates s sid q),
    sortDescBy_pairwise (fun r : SearchResult => r.similarity) (scoredCandidates s sid q),
    fun c => sortDescBy_filter (fun r : SearchResult => r.similarity)
      (scoredCandidates s sid q) c, ?_⟩
  show ((sortDescBy (fun r : SearchResult => r.similarity)
      (scoredCandidates s sid q)).take n).length = _
  rw [List.length_take,
    (sortDescBy_perm (fun r : SearchResult => r.similarity)
      (scoredCandidates s sid q)).length_eq]

/-- Claim C8: for non-zero vectors of equal dimension, `cosineSimilarity` is
symmetric and bounded in [-1, 1], and a non-zero vector has similarity
exactly 1 with itself. -/
theorem claim8_cosine_similarity (u v : List ℝ) (hlen : u.length = v.length)
    (hu : ∃ x ∈ u, x ≠ 0) (hv : ∃ x ∈ v, x ≠ 0) :
    cosineSimilarity u v = cosineSimilarity v u ∧ -1 ≤ cosineSimilarity u v ∧
      cosineSimilarity u v ≤ 1 ∧ cosineSimilarity u u = 1 := by
  have hU : 0 < dotList u u := dotList_self_pos u hu
  have hV : 0 < dotList v v := dotList_self_pos v hv
  have hsU : 0 < Real.sqrt (dotList u u) := Real.sqrt_pos.mpr hU
  have hsV : 0 < Real.sqrt (dotList v v) := Real.sqrt_pos.mpr hV
  have hden : 0 < Real.sqrt (dotList u u) * Real.sqrt (dotList v v) := mul_pos hsU hsV
  have habs : |dotList u v| ≤ Real.sqrt (dotList u u) * Real.sqrt (dotList v v) := by
    calc |dotList u v| = Real.sqrt ((dotList u v) ^ 2) := (Real.sqrt_sq_eq_abs _).symm
      _ ≤ Real.sqrt (dotList u u * dotList v v) := Real.sqrt_le_sqrt (dotList_sq_le u v)
      _ = Real.sqrt (dotList u u) * Real.sqrt (dotList v v) := Real.sqrt_mul hU.le _
  refine ⟨?_, ?_, ?_, ?_⟩
  · unfold cosineSimilarity
    rw [dotList_comm u v, mul_comm (Real.sqrt (dotList u u)) (Real.sqrt (dotList v v))]
  · unfold cosineSimilarity
    rw [le_div_iff₀ hden]
    have h1 := neg_abs_le (dotList u v)
    linarith
  · unfold cosineSimilarity
    rw [div_le_one hden]
    exact le_trans (le_abs_self _) habs
  · unfold cosineSimilarity
    rw [Real.mul_self_sqrt hU.le]
    exact div_self hU.ne'

/-- Witness for C8 at `u = [1, 0]`, `v = [0, 1]`: equal dimension, both
non-zero, with symmetry, the bounds, and self-similarity 1 all instantiated. -/
theorem claim8_witness :
    ([(1 : ℝ), 0].length = [(0 : ℝ), 1].length) ∧
    (∃ x ∈ [(1 : ℝ), 0], x ≠ 0) ∧ (∃ x ∈ [(0 : ℝ), 1], x ≠ 0) ∧
    (cosineSimilarity [(1 : ℝ), 0] [(0 : ℝ), 1] = cosineSimilarity [(0 : ℝ), 1] [(1 : ℝ), 0] ∧
      -1 ≤ cosineSimilarity [(1 : ℝ), 0] [(0 : ℝ), 1] ∧
      cosineSimilarity [(1 : ℝ), 0] [(0 : ℝ), 1] ≤ 1 ∧
      cosineSimilarity [(1 : ℝ), 0] [(1 : ℝ), 0] = 1) :=
  ⟨rfl, ⟨1, by simp, one_ne_zero⟩, ⟨1, by simp, one_ne_zero⟩,
   claim8_cosine_similarity [(1 : ℝ), 0] [(0 : ℝ), 1] rfl ⟨1, by simp, one_ne_zero⟩
     ⟨1, by simp, one_ne_zero⟩⟩

theorem msgObsLe_refl {E : Type} (a : Message E) : msgObsLe a a :=
  ⟨rfl, rfl, rfl, rfl, rfl, id⟩

theorem msgObsLe_trans {E : Type} {a b c : Message E} (h1 : msgObsLe a b) (h2 : msgObsLe b c) :
    msgObsLe a c := by
  obtain ⟨i1, r1, c1, t1, s1, f1⟩ := h1
  obtain ⟨i2, r2, c2, t2, s2, f2⟩ := h2
  exact ⟨i1.trans i2, r1.trans r2, c1.trans c2, t1.trans t2, s1.trans s2, fun h => f2 (f1 h)⟩

theorem forall2_msgObsLe_refl {E : Type} (l : List (Message E)) : List.Forall₂ msgObsLe l l :=
  List.forall₂_same.mpr (fun x _ => msgObsLe_refl x)

theorem forall2_msgObsLe_trans {E : Type} {l1 l2 l3 : List (Message E)}
    (h12 : List.Forall₂ msgObsLe l1 l2) (h23 : List.Forall₂ msgObsLe l2 l3) :
    List.Forall₂ msgObsLe l1 l3 := by
  induction h12 generalizing l3 with
  | nil => cases h23; exact List.Forall₂.nil
  | cons hab h ih =>
    cases h23 with
    | cons hbc h2 => exact List.Forall₂.cons (msgObsLe_trans hab hbc) (ih h2)

theorem updateFirst_markOne_forall2 {E : Type} (i : ℕ) (l : List (Message E)) :
    List.Forall₂ msgObsLe l
      (updateFirst (fun m => decide (m.id = i))
        (fun m => Message.mk m.id m.session m.role m.content m.tokens m.timestamp true
          m.embedding) l) := by
  induction l with
  | nil => exact List.Forall₂.nil
  | cons x xs ih =>
    rw [updateFirst]
    split
    · exact List.Forall₂.cons ⟨rfl, rfl, rfl, rfl, rfl, fun _ => rfl⟩
        (forall2_msgObsLe_refl xs)
    · exact List.Forall₂.cons (msgObsLe_refl x) ih

theorem markSummarized_forall2 {E : Type} (ids : List ℕ) (s : State E) :
    List.Forall₂ msgObsLe s.messages (markSummarized s ids).messages := by
  induction ids generalizing s with
  | nil => exact forall2_msgObsLe_refl s.messages
  | cons i is ih =>
    exact forall2_msgObsLe_trans (updateFirst_markOne_forall2 i s.messages) (ih (markOne s i))

theorem statePreserves_of_messages_eq {E : Type} {s t : State E} (h : t.messages = s.messages) :
    statePreserves s t :=
  ⟨s.messages, [], by rw [h, List.append_nil], forall2_msgObsLe_refl s.messages⟩

theorem generateSummary_statePreserves {E : Type} (s : State E) (sid : String) (t : ℕ)
    (api : Option String) (e : E) : statePreserves s (generateSummary s sid t api e) := by
  cases api with
  | none =>
    have h : generateSummary s sid t none e = s := by
      unfold generateSummary
      split <;> simp_all
    rw [h]
    exact statePreserves_of_messages_eq rfl
  | some sum =>
    by_cases hb : (unsummarizedBatch s sid).length < 5
    · have h : generateSummary s sid t (some sum) e = s := by
        show (if (unsummarizedBatch s sid).length < 5 then s
          else markSummarized (appendMemory s sid sum t e)
            ((unsummarizedBatch s sid).map (fun r => r.id))) = s
        rw [if_pos hb]
      rw [h]
      exact statePreserves_of_messages_eq rfl
    · have h : generateSummary s sid t (some sum) e =
          markSummarized (appendMemory s sid sum t e)
            ((unsummarizedBatch s sid).map (fun r => r.id)) := by
        show (if (unsummarizedBatch s sid).length < 5 then s
          else markSummarized (appendMemory s sid sum t e)
            ((unsummarizedBatch s sid).map (fun r => r.id))) = _
        rw [if_neg hb]
      rw [h]
      refine ⟨(markSummarized (appendMemory s sid sum t e)
          ((unsummarizedBatch s sid).map (fun r => r.id))).messages, [],
        (List.append_nil _).symm, ?_⟩
      have hm := markSummarized_forall2 ((unsummarizedBatch s sid).map (fun r => r.id))
        (appendMemory s sid sum t e)
      exact hm

theorem statePreserves_trans {E : Type} {a b c : State E} (h1 : statePreserves a b)
    (h2 : statePreserves b c) : statePreserves a c := by
  obtain ⟨p1, r1, hb, f1⟩ := h1
  obtain ⟨p2, r2, hc, f2⟩ := h2
  rw [hb] at f2
  have f2t := List.forall₂_take p1.length f2
  rw [List.take_left] at f2t
  refine ⟨p2.take p1.length, p2.drop p1.length ++ r2, ?_, forall2_msgObsLe_trans f1 f2t⟩
  rw [hc, ← List.append_assoc, List.take_append_drop]

theorem handleChat_statePreserves {E : Type} (s : State E) (sid msg : String) (tU tS tA : ℕ)
    (eU : E) (sumApi : Option String) (eM : E) (chatApi : Option String) (eA : E) :
    statePreserves s (handleChat s sid msg tU tS tA eU sumApi eM chatApi eA).1 := by
  have h12 : statePreserves s (saveMessage (ensureSession s sid tU) sid "user" msg tU eU) := by
    refine ⟨s.messages, [Message.mk (ensureSession s sid tU).nextId sid "user" msg
      (estimateTokens msg) tU false eU], ?_, forall2_msgObsLe_refl s.messages⟩
    rw [messages_saveMessage, messages_ensureSession]
  have h23 : statePreserves (saveMessage (ensureSession s sid tU) sid "user" msg tU eU)
      (afterTrigger (saveMessage (ensureSession s sid tU) sid "user" msg tU eU) sid tS sumApi
        eM) := by
    show statePreserves (saveMessage (ensureSession s sid tU) sid "user" msg tU eU)
      (if 0 < getMessageCount (saveMessage (ensureSession s sid tU) sid "user" msg tU eU) sid ∧
          getMessageCount (saveMessage (ensureSession s sid tU) sid "user" msg tU eU) sid %
            SUMMARY_TRIGGER_ROUNDS = 0 then
        generateSummary (saveMessage (ensureSession s sid tU) sid "user" msg tU eU) sid tS
          sumApi eM
      else saveMessage (ensureSession s sid tU) sid "user" msg tU eU)
    split
    · exact generateSummary_statePreserves _ sid tS sumApi eM
    · exact statePreserves_of_messages_eq rfl
  have h13 := statePreserves_trans h12 h23
  cases chatApi with
  | none => exact h13
  | some reply =>
    refine statePreserves_trans h13 ?_
    refine ⟨(afterTrigger (saveMessage (ensureSession s sid tU) sid "user" msg tU eU) sid tS
        sumApi eM).messages,
      [Message.mk (afterTrigger (saveMessage (ensureSession s sid tU) sid "user" msg tU eU)
          sid tS sumApi eM).nextId sid "assistant" reply (estimateTokens reply) tA false eA],
      ?_, forall2_msgObsLe_refl _⟩
    exact messages_saveMessage _ sid "assistant" reply tA eA

theorem updateFirst_id {α : Type} (p : α → Bool) (f : α → α) (l : List α)
    (h : ∀ x ∈ l, p x = true → f x = x) : updateFirst p f l = l := by
  induction l with
  | nil => rfl
  | cons x xs ih =>
    rw [updateFirst]
    split
    · next hp => rw [h x (List.mem_cons_self x xs) hp]
    · rw [ih (fun y hy hp => h y (List.mem_cons_of_mem x hy) hp)]

theorem markOne_id {E : Type} (s : State E) (i : ℕ)
    (h : ∀ m ∈ s.messages, m.id = i → m.summarized = true) : markOne s i = s := by
  unfold markOne
  rw [updateFirst_id]
  intro x hx hp
  have hid : x.id = i := of_decide_eq_true hp
  have hs := h x hx hid
  cases x with
  | mk id2 session2 role2 content2 tokens2 timestamp2 summarized2 embedding2 =>
    simp only at hs
    rw [hs]

theorem markSummarized_id {E : Type} (s : State E) :
    ∀ ids : List ℕ, (∀ m ∈ s.messages, m.id ∈ ids → m.summarized = true) →
      markSummarized s ids = s := by
  intro ids
  induction ids with
  | nil => intro _; rfl
  | cons i is ih =>
    intro h
    have h1 : markOne s i = s := markOne_id s i
      (fun m hm hid => h m hm (by rw [hid]; exact List.mem_cons_self i is))
    show markSummarized (markOne s i) is = s
    rw [h1]
    exact ih (fun m hm hin => h m hm (List.mem_cons_of_mem i hin))

/-- Claim C9: every operation of the repository preserves each stored
message's id, role, content, tokens and timestamp, and moves its summarized
flag only `false → true`; and `markSummarized` on ids whose messages are all
already summarized leaves the state unchanged (idempotence). -/
theorem claim9_message_immutability (E : Type) (op : DbOp E) (s : State E) :
    statePreserves s (applyOp op s) ∧
    (∀ ids : List ℕ, (∀ m ∈ s.messages, m.id ∈ ids → m.summarized = true) →
      markSummarized s ids = s) := by
  constructor
  · cases op with
    | ensure sid t => exact statePreserves_of_messages_eq (messages_ensureSession s sid t)
    | touch sid t => exact statePreserves_of_messages_eq rfl
    | save sid role content t e =>
      exact ⟨s.messages,
        [Message.mk s.nextId sid role content (estimateTokens content) t false e],
        messages_saveMessage s sid role content t e, forall2_msgObsLe_refl s.messages⟩
    | mark ids =>
      exact ⟨(markSummarized s ids).messages, [], (List.append_nil _).symm,
        markSummarized_forall2 ids s⟩
    | appendSum sid text t e => exact statePreserves_of_messages_eq rfl
    | summarize sid t api e => exact generateSummary_statePreserves s sid t api e
    | turn sid msg tU tS tA eU sumApi eM chatApi eA =>
      exact handleChat_statePreserves s sid msg tU tS tA eU sumApi eM chatApi eA
  · exact markSummarized_id s

/-- Witness for C9: the mark operation on the five-message store preserves
it, and re-marking the already-summarized store changes nothing. -/
theorem claim9_witness :
    statePreserves exC6State (applyOp (DbOp.mark [1]) exC6State) ∧
    markSummarized allSummarizedState [1, 2] = allSummarizedState :=
  ⟨(claim9_message_immutability Unit (DbOp.mark [1]) exC6State).1,
   (claim9_message_immutability Unit (DbOp.mark [1]) allSummarizedState).2 [1, 2] (by decide)⟩

/-- Claim C10: the short-term window contains only unsummarized messages of
the requested session — a summarized message never enters `recent` or the
assembled context's message list — and when a summarization pass has
consumed every message of the session, the window is empty and the context
is its system messages alone. -/
theorem claim10_window_excludes_summarized (E : Type) (s : State E) (sid : String) (n : ℕ) :
    (∀ m ∈ recentFull s sid n, m.summarized = false ∧ m.session = sid) ∧
    ((∀ m ∈ s.messages, m.session = sid → m.summarized = true) →
      getRecentHistory s sid n = [] ∧
      buildContext s sid =
        ChatMsg.mk "system" personaText ::
          (if 0 < (getLongTermMemory s sid).length then
            [ChatMsg.mk "system"
              (summaryHeaderText ++ String.intercalate "\n\n" (getLongTermMemory s sid))]
          else [])) := by
  constructor
  · intro m hm
    have hm2 : m ∈ s.messages.filter
        (fun m => decide (m.session = sid ∧ m.summarized = false)) := by
      unfold recentFull at hm
      rw [List.mem_reverse] at hm
      exact (sortDescBy_perm (fun m : Message E => m.timestamp) _).mem_iff.mp
        (List.mem_of_mem_take hm)
    rw [List.mem_filter] at hm2
    have hp := of_decide_eq_true hm2.2
    exact ⟨hp.2, hp.1⟩
  · intro hall
    have hfilter : s.messages.filter
        (fun m => decide (m.session = sid ∧ m.summarized = false)) = [] := by
      rw [List.filter_eq_nil_iff]
      intro a ha hdec
      have hx := of_decide_eq_true hdec
      have htrue := hall a ha hx.1
      have hfalse := hx.2
      rw [htrue] at hfalse
      exact Bool.noConfusion hfalse
    have hrec : ∀ k : ℕ, getRecentHistory s sid k = [] := by
      intro k
      unfold getRecentHistory
      rw [hfilter]
      simp [sortDescBy]
    refine ⟨hrec n, ?_⟩
    show ((if 0 < (getLongTermMemory s sid).length then
        [ChatMsg.mk "system" personaText] ++
          [ChatMsg.mk "system"
            (summaryHeaderText ++ String.intercalate "\n\n" (getLongTermMemory s sid))]
      else [ChatMsg.mk "system" personaText]) ++
      (getRecentHistory s sid (MAX_SHORT_TERM_ROUNDS * 2)).map
        (fun m => ChatMsg.mk m.role m.content)) = _
    rw [hrec (MAX_SHORT_TERM_ROUNDS * 2)]
    by_cases hl : 0 < (getLongTermMemory s sid).length
    · rw [if_pos hl, if_pos hl]
      rfl
    · rw [if_neg hl, if_neg hl]
      rfl

/-- Witness for C10: a window message of the five-message store is indeed
unsummarized and of session `"s1"`; and on the fully summarized store the
window is empty and the context is the persona message alone. -/
theorem claim10_witness :
    ((Message.mk 2 "s1" "user" "m2" 1 2 false ()).summarized = false ∧
      (Message.mk 2 "s1" "user" "m2" 1 2 false ()).session = "s1") ∧
    (getRecentHistory allSummarizedState "s1" 4 = [] ∧
      buildContext allSummarizedState "s1" =
        ChatMsg.mk "system" personaText ::
          (if 0 < (getLongTermMemory allSummarizedState "s1").length then
            [ChatMsg.mk "system"
              (summaryHeaderText ++
                String.intercalate "\n\n" (getLongTermMemory allSummarizedState "s1"))]
          else [])) :=
  ⟨(claim10_window_excludes_summarized Unit exC6State "s1" 4).1
      (Message.mk 2 "s1" "user" "m2" 1 2 false ()) (by decide),
   (claim10_window_excludes_summarized Unit allSummarizedState "s1" 4).2 (by decide)⟩

end Bot
